import Mathlib

/-!
# Verification of the fossyl route-dispatch core

A shallow embedding, in Lean 4, of the route sorting/grouping algorithms,
the per-request execution pipeline, the error serialization and the route
constructors of the fossyl repository, together with theorems settling the
spec's claims about them.

Conventions of the embedding:
* `splitSegs` models JavaScript `path.split('/')` (both keep empty
  segments, both produce a leading `""` for a path starting with `/`).
* `compare (a b : String)` (code-point lexicographic order) models
  `a.localeCompare(b)`, faithful for the ASCII path segments routes use;
  only the sign of the comparator matters.
* JavaScript `Array.prototype.sort` with a comparator `cmp` is modelled as a
  stable insertion sort keeping `a` before `b` whenever `cmp a b ≤ 0`
  (ECMAScript guarantees stability; any stable sort agreeing with the
  comparator is the same function on lists).
* JavaScript `Map` is modelled as an association list in key-insertion
  order, which is exactly the iteration order `Map` guarantees.
* Exceptions are modelled with `Except`: a function that can throw returns
  `Except JsError α`.
-/

namespace Fossyl

/-! ## Route sorting (src/packages/express/src/sorting.ts) -/

/-- A route as `sortRoutes` and `groupRoutes` see it: only the path template
and the verb matter to ordering and grouping. -/
structure SRoute where
  path : String
  method : String
deriving DecidableEq, Repr

/-- JavaScript `path.split('/')`, char by char: splitting `"/users/list"` at
every `'/'` yields `["", "users", "list"]`, keeping empty segments (a
structurally recursive model of `String.splitOn "/"`, which the kernel
cannot evaluate). -/
def splitSlashChars : List Char → List (List Char)
  | [] => [[]]
  | c :: cs =>
    if c = '/' then [] :: splitSlashChars cs
    else
      match splitSlashChars cs with
      | s :: ss => (c :: s) :: ss
      | [] => [[c]]

/-- The `/`-separated segments of a path template. -/
def splitSegs (p : String) : List String :=
  (splitSlashChars p.data).map (fun l => ⟨l⟩)

/-- `seg.startsWith(':')` — is this path segment a named (dynamic) segment? -/
def isParamSeg (s : String) : Bool := s.data.head? = some ':'

/-- One iteration of the comparator loop of `sortRoutes`: static before
dynamic, otherwise `localeCompare`; `.eq` means the loop continues. -/
def segCmp (a b : String) : Ordering :=
  if !isParamSeg a && isParamSeg b then .lt
  else if isParamSeg a && !isParamSeg b then .gt
  else compare a b

/-- The tail of the comparator loop once the left segment list is exhausted:
every further iteration compares `''` against the remaining right segments. -/
def cmpPaddedNilL : List String → Ordering
  | [] => .eq
  | b :: bs =>
    match segCmp "" b with
    | .eq => cmpPaddedNilL bs
    | o => o

/-- The tail of the comparator loop once the right segment list is exhausted. -/
def cmpPaddedNilR : List String → Ordering
  | [] => .eq
  | a :: as =>
    match segCmp a "" with
    | .eq => cmpPaddedNilR as
    | o => o

/-- The comparator loop of `sortRoutes` over the two segment lists, padding
the shorter list with `''` (`aSegments[i] ?? ''`), returning the first
non-`eq` comparison; `.eq` when every padded position compares equal. -/
def cmpPadded : List String → List String → Ordering
  | [], bs => cmpPaddedNilL bs
  | a :: as, [] =>
    match segCmp a "" with
    | .eq => cmpPaddedNilR as
    | o => o
  | a :: as, b :: bs =>
    match segCmp a b with
    | .eq => cmpPadded as bs
    | o => o

/-- The full comparator of `sortRoutes`: the segment loop, then the
`aSegments.length - bSegments.length` fallback. -/
def pathCompare (pa pb : String) : Ordering :=
  match cmpPadded (splitSegs pa) (splitSegs pb) with
  | .eq => compare (splitSegs pa).length (splitSegs pb).length
  | o => o

/-- `sortRoutes` keeps `a` before `b` when the comparator is ≤ 0. -/
def routeLE (a b : SRoute) : Bool := pathCompare a.path b.path ≠ .gt

/-- Stable insertion of one element into an already sorted list, placing it
before the first element it is ≤ to. -/
def insertSortedBy {α : Type} (le : α → α → Bool) (a : α) : List α → List α
  | [] => [a]
  | b :: l => if le a b then a :: b :: l else b :: insertSortedBy le a l

/-- Stable sort by `le` (insertion sort; stable because an earlier element is
inserted in front of the later elements it ties with). -/
def stableSortBy {α : Type} (le : α → α → Bool) : List α → List α
  | [] => []
  | a :: l => insertSortedBy le a (stableSortBy le l)

/-- `sortRoutes` of src/packages/express/src/sorting.ts: a stable sort of the
route list by the segment-wise comparator. -/
def sortRoutes (routes : List SRoute) : List SRoute :=
  stableSortBy routeLE routes

/-! Basic facts about the comparator. -/

theorem string_compare_self (x : String) : compare x x = .eq :=
  compare_eq_iff_eq.mpr rfl

theorem segCmp_self (x : String) : segCmp x x = .eq := by
  unfold segCmp
  rcases h : isParamSeg x <;> simp [h, string_compare_self]

theorem cmpPadded_append_same (pre : List String) (xs ys : List String) :
    cmpPadded (pre ++ xs) (pre ++ ys) = cmpPadded xs ys := by
  induction pre with
  | nil => rfl
  | cons p pre ih => simpa [cmpPadded, segCmp_self] using ih

/-- At the first point of difference, a literal segment against a named one
makes the whole comparison `.lt`. -/
theorem cmpPadded_static_lt (pre ra rb : List String) (la nb : String)
    (hla : isParamSeg la = false) (hnb : isParamSeg nb = true) :
    cmpPadded (pre ++ la :: ra) (pre ++ nb :: rb) = .lt := by
  rw [cmpPadded_append_same]
  simp [cmpPadded, segCmp, hla, hnb]

theorem cmpPadded_param_gt (pre ra rb : List String) (la nb : String)
    (hla : isParamSeg la = false) (hnb : isParamSeg nb = true) :
    cmpPadded (pre ++ nb :: rb) (pre ++ la :: ra) = .gt := by
  rw [cmpPadded_append_same]
  simp [cmpPadded, segCmp, hla, hnb]

theorem pathCompare_param_gt (pre ra rb : List String) (la nb pa pb : String)
    (hpa : splitSegs pa = pre ++ la :: ra) (hpb : splitSegs pb = pre ++ nb :: rb)
    (hla : isParamSeg la = false) (hnb : isParamSeg nb = true) :
    pathCompare pb pa = .gt := by
  unfold pathCompare
  rw [hpa, hpb, cmpPadded_param_gt pre ra rb la nb hla hnb]

/-- C1. For routes whose path templates share the same leading segments and
first differ at a position where one has a literal segment and the other a
named (`:`) one, `sortRoutes` places the literal route first: on the
two-element list `[B, A]` (named-segment route first) it returns `[A, B]`. -/
theorem sortRoutes_static_before_param (A B : SRoute) (pre ra rb : List String)
    (la nb : String)
    (hA : splitSegs A.path = pre ++ la :: ra)
    (hB : splitSegs B.path = pre ++ nb :: rb)
    (hla : isParamSeg la = false) (hnb : isParamSeg nb = true) :
    sortRoutes [B, A] = [A, B] := by
  have hgt : pathCompare B.path A.path = .gt :=
    pathCompare_param_gt pre ra rb la nb A.path B.path hA hB hla hnb
  simp [sortRoutes, stableSortBy, insertSortedBy, routeLE, hgt]

/-- C1's scenario: `[GET /users/:id, GET /users/list]` sorts to
`[GET /users/list, GET /users/:id]`. -/
theorem sortRoutes_static_before_param_witness :
    sortRoutes [⟨"/users/:id", "GET"⟩, ⟨"/users/list", "GET"⟩] =
      [⟨"/users/list", "GET"⟩, ⟨"/users/:id", "GET"⟩] :=
  sortRoutes_static_before_param ⟨"/users/list", "GET"⟩ ⟨"/users/:id", "GET"⟩
    ["", "users"] [] [] "list" ":id" (by decide) (by decide) (by decide) (by decide)

/-! ## The spec's description of the comparator (claim C5)

`specSegCmp`/`specCmpSegs` follow the spec's words: compare segment-by-segment
up to the shorter length; a literal segment sorts before a named segment; two
literal segments compare lexicographically; two named segments are treated as
equal at that position and comparison continues; if all compared segments are
equal the shorter path sorts first. They exist only to be compared with the
comparator read off the source. -/

def specSegCmp (a b : String) : Ordering :=
  if !isParamSeg a && isParamSeg b then .lt
  else if isParamSeg a && !isParamSeg b then .gt
  else if isParamSeg a && isParamSeg b then .eq
  else compare a b

def specCmpSegs : List String → List String → Ordering
  | [], [] => .eq
  | [], _ :: _ => .lt
  | _ :: _, [] => .gt
  | a :: as, b :: bs =>
    match specSegCmp a b with
    | .eq => specCmpSegs as bs
    | o => o

def specRouteLE (a b : SRoute) : Bool :=
  specCmpSegs (splitSegs a.path) (splitSegs b.path) ≠ .gt

/-- C5 counterexample. On `[GET /x/:b, GET /x/:a]` the source's `sortRoutes`
swaps the two routes (different named segments compare lexicographically, and
`":a" < ":b"`), while the comparison the claim describes treats the two named
segments as equal and a stable sort keeps the input order: the claim's
description and the code disagree at this input. -/
theorem sortRoutes_spec_comparator_counterexample :
    sortRoutes [⟨"/x/:b", "GET"⟩, ⟨"/x/:a", "GET"⟩] =
        [⟨"/x/:a", "GET"⟩, ⟨"/x/:b", "GET"⟩] ∧
      stableSortBy specRouteLE [⟨"/x/:b", "GET"⟩, ⟨"/x/:a", "GET"⟩] =
        [⟨"/x/:b", "GET"⟩, ⟨"/x/:a", "GET"⟩] ∧
      sortRoutes [⟨"/x/:b", "GET"⟩, ⟨"/x/:a", "GET"⟩] ≠
        stableSortBy specRouteLE [⟨"/x/:b", "GET"⟩, ⟨"/x/:a", "GET"⟩] := by
  refine ⟨by decide, by decide, by decide⟩

/-! ## The amended comparator description (claim C5)

Same as the spec's description except that two named segments, like two
literal ones, compare lexicographically (their full text, colon included),
continuing only when they are identical. -/

def amendedCmpSegs : List String → List String → Ordering
  | [], [] => .eq
  | [], _ :: _ => .lt
  | _ :: _, [] => .gt
  | a :: as, b :: bs =>
    match segCmp a b with
    | .eq => amendedCmpSegs as bs
    | o => o

def amendedRouteLE (a b : SRoute) : Bool :=
  amendedCmpSegs (splitSegs a.path) (splitSegs b.path) ≠ .gt

theorem not_string_lt_empty (s : String) : ¬ s < "" := by
  intro h
  rw [String.lt_iff_toList_lt] at h
  exact List.Lex.not_nil_right _ _ h

theorem segCmp_empty_right (s : String) : segCmp s "" ≠ .lt := by
  unfold segCmp
  have hp : isParamSeg "" = false := by decide
  rcases h : isParamSeg s with _ | _
  · simp only [h, hp, Bool.not_false, Bool.and_false, Bool.false_and, if_neg, ite_false,
      Bool.not_true, reduceIte]
    intro hc
    exact not_string_lt_empty s (compare_lt_iff_lt.mp hc)
  · simp [h, hp]

theorem segCmp_empty_left (s : String) : segCmp "" s ≠ .gt := by
  unfold segCmp
  have hp : isParamSeg "" = false := by decide
  rcases h : isParamSeg s with _ | _
  · simp only [h, hp, Bool.not_false, Bool.and_false, Bool.false_and, reduceIte]
    intro hc
    exact not_string_lt_empty s (compare_gt_iff_gt.mp hc)
  · simp [h, hp]

theorem cmpPaddedNilL_ne_gt (bs : List String) : cmpPaddedNilL bs ≠ .gt := by
  induction bs with
  | nil => simp [cmpPaddedNilL]
  | cons b bs ih =>
    unfold cmpPaddedNilL
    rcases h : segCmp "" b with _ | _ | _
    · simp
    · simpa using ih
    · exact absurd h (segCmp_empty_left b)

theorem cmpPaddedNilR_ne_lt (as : List String) : cmpPaddedNilR as ≠ .lt := by
  induction as with
  | nil => simp [cmpPaddedNilR]
  | cons a as ih =>
    unfold cmpPaddedNilR
    rcases h : segCmp a "" with _ | _ | _
    · exact absurd h (segCmp_empty_right a)
    · simpa using ih
    · simp

theorem cmpPadded_nil_left (bs : List String) : cmpPadded [] bs ≠ .gt :=
  cmpPaddedNilL_ne_gt bs

theorem cmpPadded_nil_right (as : List String) : cmpPadded as [] ≠ .lt := by
  cases as with
  | nil => simp [cmpPadded, cmpPaddedNilL]
  | cons a as =>
    unfold cmpPadded
    rcases h : segCmp a "" with _ | _ | _
    · exact absurd h (segCmp_empty_right a)
    · simpa using cmpPaddedNilR_ne_lt as
    · simp

theorem nat_compare_zero_succ (n : Nat) : compare 0 (n + 1) = .lt := by
  simp [compare, compareOfLessAndEq, Nat.succ_pos]

theorem nat_compare_succ_zero (n : Nat) : compare (n + 1) 0 = .gt := by
  simp [compare, compareOfLessAndEq]

theorem nat_compare_succ_succ (m n : Nat) : compare (m + 1) (n + 1) = compare m n := by
  simp [compare, compareOfLessAndEq, Nat.succ_lt_succ_iff]

/-- The padded comparison loop with its length fallback computes exactly the
amended description: up to the shorter length with `segCmp`, shorter first on
a tie. -/
theorem cmpPadded_fallback_eq_amended (as bs : List String) :
    (match cmpPadded as bs with
      | .eq => compare as.length bs.length
      | o => o) = amendedCmpSegs as bs := by
  induction as generalizing bs with
  | nil =>
    cases bs with
    | nil =>
      have : compare (0 : Nat) 0 = .eq := by decide
      simp [cmpPadded, cmpPaddedNilL, amendedCmpSegs, this]
    | cons b bs =>
      rcases h : cmpPadded [] (b :: bs) with _ | _ | _
      · simp [h, amendedCmpSegs]
      · simp [h, amendedCmpSegs, List.length, nat_compare_zero_succ]
      · exact absurd h (cmpPadded_nil_left (b :: bs))
  | cons a as ih =>
    cases bs with
    | nil =>
      rcases h : cmpPadded (a :: as) [] with _ | _ | _
      · exact absurd h (cmpPadded_nil_right (a :: as))
      · simp [h, amendedCmpSegs, List.length, nat_compare_succ_zero]
      · simp [h, amendedCmpSegs]
    | cons b bs =>
      rcases h : segCmp a b with _ | _ | _
      · simp [cmpPadded, amendedCmpSegs, h]
      · simp only [cmpPadded, amendedCmpSegs, h, List.length_cons,
          nat_compare_succ_succ]
        exact ih bs
      · simp [cmpPadded, amendedCmpSegs, h]

/-- C5 amended. `sortRoutes` compares two routes segment-by-segment up to the
shorter path's length, a literal segment sorting before a named segment at
the same position, two literal segments comparing lexicographically, two
*named* segments also comparing lexicographically (their full text, colon
included) with comparison continuing only when they are identical, and when
all compared segments are equal the shorter path sorting first. -/
theorem sortRoutes_comparator_amended :
    (∀ pa pb, pathCompare pa pb =
        amendedCmpSegs (splitSegs pa) (splitSegs pb)) ∧
      (∀ rs, sortRoutes rs = stableSortBy amendedRouteLE rs) := by
  have hcmp : ∀ pa pb, pathCompare pa pb =
      amendedCmpSegs (splitSegs pa) (splitSegs pb) := by
    intro pa pb
    unfold pathCompare
    exact cmpPadded_fallback_eq_amended (splitSegs pa) (splitSegs pb)
  refine ⟨hcmp, ?_⟩
  intro rs
  have hle : routeLE = amendedRouteLE := by
    funext a b
    unfold routeLE amendedRouteLE
    rw [hcmp]
  unfold sortRoutes
  rw [hle]

/-! ## Route grouping of the live dispatcher (groupRoutes / getRoutePrefix) -/

/-- JavaScript `segments.join('/')`. -/
def joinSlash : List String → String
  | [] => ""
  | [s] => s
  | s :: rest => s ++ "/" ++ joinSlash rest

/-- `getRoutePrefix` of the dispatcher's grouping module: split on `/`,
drop empty segments (`.filter(Boolean)`), take literal segments up to the
first named one, rejoin under a leading `/`. -/
def getRoutePrefix (path : String) : String :=
  let segments := (splitSegs path).filter (fun s => s ≠ "")
  "/" ++ joinSlash (segments.takeWhile (fun s => !isParamSeg s))

/-- A group of routes sharing a common static path. The source names the
first field `prefix`; that word is reserved here, so the field is `pre`. -/
structure RouteGroup where
  pre : String
  routes : List SRoute
deriving DecidableEq, Repr

/-- One step of `groupRoutes`'s `Map` update:
`group = map.get(p) ?? []; group.push(r); map.set(p, group)` on an
association list in key-insertion order (the iteration order of a JS `Map`). -/
def insertRouteIntoGroups (p : String) (r : SRoute) :
    List RouteGroup → List RouteGroup
  | [] => [⟨p, [r]⟩]
  | g :: gs =>
    if g.pre = p then ⟨g.pre, g.routes ++ [r]⟩ :: gs
    else g :: insertRouteIntoGroups p r gs

/-- `groupRoutes` of the dispatcher: each route is appended to the group of
its static path (no minimum group size in this function). -/
def groupRoutes (rs : List SRoute) : List RouteGroup :=
  rs.foldl (fun gs r => insertRouteIntoGroups (getRoutePrefix r.path) r gs) []

/-- C6 counterexample. A lone route `/a/:x` whose static path `/a` is shared
by no other route: the claim says routes whose computed-prefix group has
fewer than 2 members land in a root group, but `groupRoutes` has no such
threshold — it forms the singleton group `/a` and no root group. -/
theorem groupRoutes_threshold_counterexample :
    groupRoutes [⟨"/a/:x", "GET"⟩] =
        [⟨"/a", [⟨"/a/:x", "GET"⟩]⟩] ∧
      ("/a" : String) ≠ "/" := by
  refine ⟨by decide, by decide⟩

/-! C6 amended: `groupRoutes` characterized. Helper lemmas about one `Map`
update, then the fold. -/

/-- Every group member's static path is the group's key. -/
def groupsHomogeneous (gs : List RouteGroup) : Prop :=
  ∀ g ∈ gs, ∀ r ∈ g.routes, getRoutePrefix r.path = g.pre

theorem insertRoute_homogeneous (p : String) (r : SRoute) (gs : List RouteGroup)
    (hgs : groupsHomogeneous gs) (hr : getRoutePrefix r.path = p) :
    groupsHomogeneous (insertRouteIntoGroups p r gs) := by
  induction gs with
  | nil =>
    intro g hg x hx
    simp only [insertRouteIntoGroups, List.mem_singleton] at hg
    subst hg
    simp only [List.mem_singleton] at hx
    subst hx
    exact hr
  | cons g0 gs ih =>
    intro g hg x hx
    by_cases hp : g0.pre = p
    · rw [show insertRouteIntoGroups p r (g0 :: gs) =
          ⟨g0.pre, g0.routes ++ [r]⟩ :: gs by simp [insertRouteIntoGroups, hp]] at hg
      rcases List.mem_cons.mp hg with hgl | hgr
      · subst hgl
        rcases List.mem_append.mp hx with hxl | hxr
        · exact hgs g0 (List.mem_cons_self _ _) x hxl
        · simp only [List.mem_singleton] at hxr
          subst hxr
          rw [hr, hp]
      · exact hgs g (List.mem_cons_of_mem g0 hgr) x hx
    · simp only [insertRouteIntoGroups, if_neg hp] at hg
      rcases List.mem_cons.mp hg with hgl | hgr
      · subst hgl
        exact hgs g (List.mem_cons_self _ _) x hx
      · exact ih (fun g' hg' => hgs g' (List.mem_cons_of_mem g0 hg')) g hgr x hx

theorem insertRoute_mem (p : String) (r : SRoute) (gs : List RouteGroup) :
    ∃ g ∈ insertRouteIntoGroups p r gs, g.pre = p ∧ r ∈ g.routes := by
  induction gs with
  | nil => exact ⟨⟨p, [r]⟩, List.mem_singleton.mpr rfl, rfl, List.mem_singleton.mpr rfl⟩
  | cons g0 gs ih =>
    by_cases hp : g0.pre = p
    · refine ⟨⟨g0.pre, g0.routes ++ [r]⟩, ?_, hp, ?_⟩
      · simp [insertRouteIntoGroups, hp]
      · simp
    · rcases ih with ⟨g, hg, hgp, hgr⟩
      refine ⟨g, ?_, hgp, hgr⟩
      simp only [insertRouteIntoGroups, if_neg hp]
      exact List.mem_cons_of_mem g0 hg

theorem insertRoute_preserves (p q : String) (r x : SRoute) (gs : List RouteGroup)
    (h : ∃ g ∈ gs, g.pre = q ∧ x ∈ g.routes) :
    ∃ g ∈ insertRouteIntoGroups p r gs, g.pre = q ∧ x ∈ g.routes := by
  induction gs with
  | nil => simp at h
  | cons g0 gs ih =>
    rcases h with ⟨g, hg, hgq, hgx⟩
    by_cases hp : g0.pre = p
    · rcases List.mem_cons.mp hg with hgl | hgr
      · subst hgl
        refine ⟨⟨g.pre, g.routes ++ [r]⟩, ?_, hgq, List.mem_append_left _ hgx⟩
        simp [insertRouteIntoGroups, hp]
      · refine ⟨g, ?_, hgq, hgx⟩
        simp only [insertRouteIntoGroups, if_pos hp]
        exact List.mem_cons_of_mem _ hgr
    · rcases List.mem_cons.mp hg with hgl | hgr
      · subst hgl
        refine ⟨g, ?_, hgq, hgx⟩
        simp only [insertRouteIntoGroups, if_neg hp]
        exact List.mem_cons_self _ _
      · rcases ih ⟨g, hgr, hgq, hgx⟩ with ⟨g', hg', hq', hx'⟩
        refine ⟨g', ?_, hq', hx'⟩
        simp only [insertRouteIntoGroups, if_neg hp]
        exact List.mem_cons_of_mem g0 hg'

theorem groupRoutes_fold_homogeneous (rs : List SRoute) :
    ∀ gs : List RouteGroup, groupsHomogeneous gs →
      groupsHomogeneous
        (rs.foldl (fun gs r => insertRouteIntoGroups (getRoutePrefix r.path) r gs) gs) := by
  induction rs with
  | nil => intro gs h; simpa using h
  | cons r rs ih =>
    intro gs h
    simp only [List.foldl_cons]
    exact ih _ (insertRoute_homogeneous _ r gs h rfl)

theorem groupRoutes_fold_preserves (rs : List SRoute) (q : String) (x : SRoute) :
    ∀ gs : List RouteGroup, (∃ g ∈ gs, g.pre = q ∧ x ∈ g.routes) →
      ∃ g ∈ rs.foldl (fun gs r => insertRouteIntoGroups (getRoutePrefix r.path) r gs) gs,
        g.pre = q ∧ x ∈ g.routes := by
  induction rs with
  | nil => intro gs h; simpa using h
  | cons r rs ih =>
    intro gs h
    simp only [List.foldl_cons]
    exact ih _ (insertRoute_preserves _ q r x gs h)

theorem groupRoutes_fold_mem (rs : List SRoute) (r : SRoute) (hr : r ∈ rs) :
    ∀ gs : List RouteGroup,
      ∃ g ∈ rs.foldl (fun gs r => insertRouteIntoGroups (getRoutePrefix r.path) r gs) gs,
        g.pre = getRoutePrefix r.path ∧ r ∈ g.routes := by
  induction rs with
  | nil => cases hr
  | cons r0 rs ih =>
    intro gs
    simp only [List.foldl_cons]
    rcases List.mem_cons.mp hr with hrl | hrr
    · subst hrl
      exact groupRoutes_fold_preserves rs _ r _ (insertRoute_mem _ r gs)
    · exact ih hrr _

/-! The split/join roundtrip used by C6's edge case for all-literal paths. -/

theorem splitSlashChars_no_slash (cs : List Char) (h : ('/' : Char) ∉ cs) :
    splitSlashChars cs = [cs] := by
  induction cs with
  | nil => rfl
  | cons c cs ih =>
    have hc : c ≠ '/' := fun hc => h (hc ▸ List.mem_cons_self _ _)
    have hcs : ('/' : Char) ∉ cs := fun hm => h (List.mem_cons_of_mem c hm)
    simp [splitSlashChars, hc, ih hcs]

theorem splitSlashChars_append (xs ys : List Char) (h : ('/' : Char) ∉ xs) :
    splitSlashChars (xs ++ '/' :: ys) = xs :: splitSlashChars ys := by
  induction xs with
  | nil => simp [splitSlashChars]
  | cons c xs ih =>
    have hc : c ≠ '/' := fun hc => h (hc ▸ List.mem_cons_self _ _)
    have hxs : ('/' : Char) ∉ xs := fun hm => h (List.mem_cons_of_mem c hm)
    simp [splitSlashChars, hc, ih hxs]

theorem string_mk_data (s : String) : (⟨s.data⟩ : String) = s := rfl

theorem splitSlashChars_join (segs : List String) (hne : segs ≠ [])
    (hns : ∀ s ∈ segs, ('/' : Char) ∉ s.data) :
    splitSlashChars (joinSlash segs).data = segs.map (fun s => s.data) := by
  induction segs with
  | nil => exact absurd rfl hne
  | cons s rest ih =>
    cases rest with
    | nil =>
      simp only [joinSlash, List.map]
      exact splitSlashChars_no_slash s.data (hns s (List.mem_cons_self _ _))
    | cons t rest' =>
      have hjoin : joinSlash (s :: t :: rest') = s ++ "/" ++ joinSlash (t :: rest') := rfl
      have hdata : (s ++ "/" ++ joinSlash (t :: rest')).data =
          s.data ++ '/' :: (joinSlash (t :: rest')).data := by
        simp [String.data_append]
      rw [hjoin, hdata,
        splitSlashChars_append s.data _ (hns s (List.mem_cons_self _ _)),
        ih (by simp) (fun u hu => hns u (List.mem_cons_of_mem s hu))]
      rfl

theorem splitSegs_canonical (segs : List String) (hne : segs ≠ [])
    (hns : ∀ s ∈ segs, ('/' : Char) ∉ s.data) :
    splitSegs ("/" ++ joinSlash segs) = "" :: segs := by
  unfold splitSegs
  have hdata : ("/" ++ joinSlash segs).data = '/' :: (joinSlash segs).data := by
    simp [String.data_append]
  rw [hdata]
  have hhead : splitSlashChars ('/' :: (joinSlash segs).data) =
      [] :: splitSlashChars (joinSlash segs).data := by
    simp [splitSlashChars]
  rw [hhead, splitSlashChars_join segs hne hns]
  have hcomp : ((fun l => (⟨l⟩ : String)) ∘ fun s : String => s.data) = id := rfl
  simp only [List.map, List.map_map, hcomp, List.map_id]

/-- C6 amended. `groupRoutes` assigns every route to the group keyed by its
longest all-literal path (its `getRoutePrefix`), unconditionally: no minimum
group size and no separate root group. Every group is homogeneous — all its
members share the group's key. Edge cases as claimed: a path whose first
(non-empty) segment is named gets static path `/`, and a canonical path with
zero named segments gets its own full path. -/
theorem groupRoutes_amended :
    (∀ rs : List SRoute, ∀ r ∈ rs, ∃ g ∈ groupRoutes rs,
        g.pre = getRoutePrefix r.path ∧ r ∈ g.routes) ∧
      (∀ rs : List SRoute, ∀ g ∈ groupRoutes rs, ∀ r ∈ g.routes,
        getRoutePrefix r.path = g.pre) ∧
      (∀ p s rest, (splitSegs p).filter (fun t => t ≠ "") = s :: rest →
        isParamSeg s = true → getRoutePrefix p = "/") ∧
      (∀ segs : List String, segs ≠ [] →
        (∀ s ∈ segs, s ≠ "" ∧ ('/' : Char) ∉ s.data ∧ isParamSeg s = false) →
        getRoutePrefix ("/" ++ joinSlash segs) = "/" ++ joinSlash segs) := by
  refine ⟨?_, ?_, ?_, ?_⟩
  · intro rs r hr
    exact groupRoutes_fold_mem rs r hr []
  · intro rs
    exact groupRoutes_fold_homogeneous rs [] (by intro g hg; cases hg)
  · intro p s rest hsplit hparam
    unfold getRoutePrefix
    rw [hsplit]
    simp [List.takeWhile, hparam, joinSlash]
  · intro segs hne hprops
    unfold getRoutePrefix
    rw [splitSegs_canonical segs hne (fun s hs => (hprops s hs).2.1)]
    have hfilter : List.filter (fun s => decide (s ≠ "")) ("" :: segs) = segs := by
      simp only [List.filter]
      rw [List.filter_eq_self.mpr (fun s hs => by simp [(hprops s hs).1])]
      simp
    have htake : segs.takeWhile (fun s => !isParamSeg s) = segs :=
      List.takeWhile_eq_self_iff.mpr (fun s hs => by simp [(hprops s hs).2.2])
    simp only [hfilter]
    rw [htake]

/-! ## Route grouping of the static code generator
(`extractRouterPrefixes` / `groupRoutesByPrefix`) -/

/-- `prefixCounts.set(p, (prefixCounts.get(p) ?? 0) + 1)` on the association
list modelling the `Map`. -/
def bumpCount (p : String) : List (String × Nat) → List (String × Nat)
  | [] => [(p, 1)]
  | (q, n) :: rest => if q = p then (q, n + 1) :: rest else (q, n) :: bumpCount p rest

/-- The inner loop of `extractRouterPrefixes` for one route: for each
`i` in `1..segments.length`, count `"/" + segments.slice(0, i).join("/")`
unless `segments[i-1]` is a named segment. -/
def countPathPrefixes (segs : List String) (counts : List (String × Nat)) :
    List (String × Nat) :=
  (List.range segs.length).foldl
    (fun cs i =>
      if isParamSeg (segs.getD i "") then cs
      else bumpCount ("/" ++ joinSlash (segs.take (i + 1))) cs)
    counts

/-- `extractRouterPrefixes` of the generator: count every static-ending
prefix over all routes, keep those counted at least twice, sort by length
descending (`(a, b) => b.length - a.length`, stable). -/
def extractRouterPrefixes (routes : List SRoute) : List String :=
  let counts := routes.foldl
    (fun cs r => countPathPrefixes ((splitSegs r.path).filter (fun s => s ≠ "")) cs) []
  let many := (counts.filter (fun pc => 2 ≤ pc.2)).map (fun pc => pc.1)
  stableSortBy (fun a b => b.length ≤ a.length) many

/-- JavaScript `s.startsWith(p)` on whole paths (plain string prefix test,
as the generator uses it — not segment-aware). -/
def strStartsWith (s p : String) : Bool := p.data.isPrefixOf s.data

/-- `groups.set("/", [...(groups.get("/") ?? []), ...remaining])`. -/
def setRootGroup (rem : List SRoute) :
    List (String × List SRoute) → List (String × List SRoute)
  | [] => [("/", rem)]
  | (q, rs) :: rest =>
    if q = "/" then (q, rs ++ rem) :: rest else (q, rs) :: setRootGroup rem rest

/-- `groupRoutesByPrefix` of the generator: assign routes to the most
specific extracted prefix that (string-)prefixes their path and still
matches at least 2 unassigned routes; everything left goes to `/`. -/
def groupRoutesByPrefix (routes : List SRoute) : List (String × List SRoute) :=
  let pfxs := extractRouterPrefixes routes
  let result := pfxs.foldl
    (fun (acc : List (String × List SRoute) × List SRoute) p =>
      let matching := routes.filter (fun r => strStartsWith r.path p && !acc.2.contains r)
      if 2 ≤ matching.length then (acc.1 ++ [(p, matching)], acc.2 ++ matching)
      else acc)
    ([], [])
  let remaining := routes.filter (fun r => !result.2.contains r)
  if 0 < remaining.length then setRootGroup remaining result.1 else result.1

/-- C9. The two grouping consumers are not equivalent: on the one-route
collection `[GET /a]` the live dispatcher's `groupRoutes` forms the group
`/a` holding the route, while the generator's `groupRoutesByPrefix` (whose
prefixes need a count of at least 2) assigns the same route to the root
group `/`. -/
theorem grouping_consumers_diverge :
    groupRoutes [⟨"/a", "GET"⟩] = [⟨"/a", [⟨"/a", "GET"⟩]⟩] ∧
      groupRoutesByPrefix [⟨"/a", "GET"⟩] = [("/", [⟨"/a", "GET"⟩])] := by
  refine ⟨by decide, by decide⟩

/-! ## Error taxonomy and serialization (src/packages/express/src/errors.ts) -/

/-- A thrown JavaScript value as `handleError` distinguishes it: an
`AuthenticationError` instance, a `ValidationError` instance (carrying its
`details`), or anything else (`name` models the class name of the thrown
error, e.g. a hypothetical `NotFoundError`). -/
inductive JsError where
  | authenticationError (message : String)
  | validationError (message : String) (details : Option String)
  | otherError (name : String) (message : String)
deriving DecidableEq, Repr

/-- The numeric `ERROR_CODES` constants (branding erased). -/
def AUTHENTICATION_REQUIRED : Nat := 1001
def AUTHENTICATION_FAILED : Nat := 1002
def INVALID_TOKEN : Nat := 1003
def VALIDATION_FAILED : Nat := 2001
def INVALID_REQUEST_BODY : Nat := 2002
def INVALID_QUERY_PARAMS : Nat := 2003
def NOT_FOUND : Nat := 3001
def CONFLICT : Nat := 3002
def INTERNAL_ERROR : Nat := 5001

structure ErrorBody where
  code : Nat
  message : String
  details : Option String
deriving DecidableEq, Repr

/-- The failure envelope (`success` is the string literal `'false'` in the
source). -/
structure ErrorResponse where
  success : String
  error : ErrorBody
deriving DecidableEq, Repr

def createErrorResponse (code : Nat) (message : String)
    (details : Option String) : ErrorResponse :=
  { success := "false", error := { code, message, details } }

/-- `handleError`: the status code it sets on the response and the envelope
it serializes (the logger calls have no bearing on either). -/
def handleError : JsError → Nat × ErrorResponse
  | .authenticationError m =>
    (401, createErrorResponse AUTHENTICATION_FAILED m none)
  | .validationError m d =>
    (400, createErrorResponse VALIDATION_FAILED m d)
  | .otherError _ _ =>
    (500, createErrorResponse INTERNAL_ERROR "Internal server error" none)

/-- C8 counterexample. `handleError` has no branch for a NotFound-style
taxonomy member: an error named `NotFoundError` is serialized with status
500 (generic internal error), not the claimed 404 — and the envelope's
`error.code` is the number 5001, not a kind string. -/
theorem handleError_not_found_counterexample :
    handleError (.otherError "NotFoundError" "item missing") =
        (500, createErrorResponse INTERNAL_ERROR "Internal server error" none) ∧
      (500 : Nat) ≠ 404 := by
  refine ⟨rfl, by decide⟩

/-- C8 amended. `handleError` maps an `AuthenticationError` to status 401
with numeric code 1002, a `ValidationError` to status 400 with numeric code
2001 and the validator's `details`, and every other thrown error — the
taxonomy has no NotFound/Conflict branch — to status 500 with numeric code
5001 and the fixed message `Internal server error`; the original message of
an unrecognized error never reaches the envelope (the response is the same
whatever the error's name and message were). -/
theorem handleError_amended :
    (∀ m, handleError (.authenticationError m) =
        (401, createErrorResponse AUTHENTICATION_FAILED m none)) ∧
      (∀ m d, handleError (.validationError m d) =
        (400, createErrorResponse VALIDATION_FAILED m d)) ∧
      (∀ n m, handleError (.otherError n m) =
        (500, createErrorResponse INTERNAL_ERROR "Internal server error" none)) ∧
      (∀ n m n' m', handleError (.otherError n m) = handleError (.otherError n' m')) ∧
      AUTHENTICATION_FAILED = 1002 ∧ VALIDATION_FAILED = 2001 ∧
        INTERNAL_ERROR = 5001 := by
  exact ⟨fun _ => rfl, fun _ _ => rfl, fun _ _ => rfl, fun _ _ _ _ => rfl,
    rfl, rfl, rfl⟩

/-! ## The execution pipeline (src/packages/express/src/handlers.ts) -/

/-- A fossyl route as `executeRoute` consumes it: the four shapes, each with
its functions. Type parameters: `H` headers, `B` raw body, `A` auth value,
`V` validated body, `P` params, `D` handler result. Fallible functions
return `Except JsError`. -/
inductive XRoute (H B A V P D : Type) where
  | openRoute (handler : P → Except JsError D)
  | authenticatedRoute (authenticator : H → Except JsError A)
      (handler : P → A → Except JsError D)
  | validatedRoute (validator : B → Except JsError V)
      (handler : P → V → Except JsError D)
  | fullRoute (authenticator : H → Except JsError A)
      (validator : B → Except JsError V)
      (handler : P → A → V → Except JsError D)

/-- The database adapter as `executeRoute` sees it (`options.database`):
two higher-order wrappers. -/
structure Database (D : Type) where
  withTransaction : (Unit → Except JsError D) → Except JsError D
  withClient : (Unit → Except JsError D) → Except JsError D

/-- One incoming request: its headers, raw body, and the `params` value
(`{ url: req.params, query: req.query }`) built at the top of
`executeRoute`. -/
structure Request (H B P : Type) where
  headers : H
  body : B
  params : P

/-- `executeRoute`: authenticate, validate, then run the handler under the
shape's database wrapper (or bare when no database adapter is configured);
the first failure aborts the rest. -/
def executeRoute {H B A V P D : Type} (route : XRoute H B A V P D)
    (req : Request H B P) (database : Option (Database D)) :
    Except JsError D :=
  match route with
  | .fullRoute authenticator validator handler =>
    match authenticator req.headers with
    | .error e => .error e
    | .ok auth =>
      match validator req.body with
      | .error e => .error e
      | .ok body =>
        match database with
        | some db => db.withTransaction (fun _ => handler req.params auth body)
        | none => handler req.params auth body
  | .authenticatedRoute authenticator handler =>
    match authenticator req.headers with
    | .error e => .error e
    | .ok auth =>
      match database with
      | some db => db.withClient (fun _ => handler req.params auth)
      | none => handler req.params auth
  | .validatedRoute validator handler =>
    match validator req.body with
    | .error e => .error e
    | .ok body =>
      match database with
      | some db => db.withTransaction (fun _ => handler req.params body)
      | none => handler req.params body
  | .openRoute handler =>
    match database with
    | some db => db.withClient (fun _ => handler req.params)
    | none => handler req.params

/-- C2. In `executeRoute` authentication strictly precedes validation, which
strictly precedes the handler. (1) On a `full` route whose authenticator
fails, the result is that failure, and it is the same whatever the validator
and handler are — neither runs. (2) Likewise on an `authenticated` route the
handler never runs after a failed authenticator. (3) On a `full` route whose
validator rejects the body, the result is the same whatever the handler is;
once authentication succeeded the result is the validator's error, and the
serialized envelope for that documented rejection (`ValidationError`) is the
400/`VALIDATION_FAILED` one. (4) Likewise on a `validated` route. -/
theorem pipeline_stage_order :
    (∀ (H B A V P D : Type) (authenticator : H → Except JsError A)
        (validator validator' : B → Except JsError V)
        (handler handler' : P → A → V → Except JsError D)
        (req : Request H B P) (db : Option (Database D)) (e : JsError),
        authenticator req.headers = .error e →
        executeRoute (.fullRoute authenticator validator handler) req db = .error e ∧
          executeRoute (.fullRoute authenticator validator handler) req db =
            executeRoute (.fullRoute authenticator validator' handler') req db) ∧
      (∀ (H B A V P D : Type) (authenticator : H → Except JsError A)
          (handler handler' : P → A → Except JsError D)
          (req : Request H B P) (db : Option (Database D)) (e : JsError),
          authenticator req.headers = .error e →
          executeRoute (XRoute.authenticatedRoute (V := V) authenticator handler)
              req db = .error e ∧
            executeRoute (XRoute.authenticatedRoute (V := V) authenticator handler)
                req db =
              executeRoute (XRoute.authenticatedRoute (V := V) authenticator handler')
                req db) ∧
      (∀ (H B A V P D : Type) (authenticator : H → Except JsError A)
          (validator : B → Except JsError V)
          (handler handler' : P → A → V → Except JsError D)
          (req : Request H B P) (db : Option (Database D))
          (m : String) (d : Option String),
          validator req.body = .error (.validationError m d) →
          executeRoute (.fullRoute authenticator validator handler) req db =
              executeRoute (.fullRoute authenticator validator handler') req db ∧
            (∀ a, authenticator req.headers = .ok a →
              executeRoute (.fullRoute authenticator validator handler) req db =
                  .error (.validationError m d) ∧
                handleError (.validationError m d) =
                  (400, createErrorResponse VALIDATION_FAILED m d))) ∧
      (∀ (H B A V P D : Type) (validator : B → Except JsError V)
          (handler handler' : P → V → Except JsError D)
          (req : Request H B P) (db : Option (Database D))
          (m : String) (d : Option String),
          validator req.body = .error (.validationError m d) →
          executeRoute (XRoute.validatedRoute (A := A) validator handler) req db =
              .error (.validationError m d) ∧
            executeRoute (XRoute.validatedRoute (A := A) validator handler) req db =
              executeRoute (XRoute.validatedRoute (A := A) validator handler') req db ∧
            handleError (.validationError m d) =
              (400, createErrorResponse VALIDATION_FAILED m d)) := by
  refine ⟨?_, ?_, ?_, ?_⟩
  · intro H B A V P D authenticator validator validator' handler handler' req db e he
    constructor <;> simp [executeRoute, he]
  · intro H B A V P D authenticator handler handler' req db e he
    constructor <;> simp [executeRoute, he]
  · intro H B A V P D authenticator validator handler handler' req db m d hv
    constructor
    · cases ha : authenticator req.headers <;> simp [executeRoute, ha, hv]
    · intro a ha
      refine ⟨by simp [executeRoute, ha, hv], rfl⟩
  · intro H B A V P D validator handler handler' req db m d hv
    refine ⟨by simp [executeRoute, hv], by simp [executeRoute, hv], rfl⟩

/-- C3. With a database adapter configured, `executeRoute` nests the handler
of a route that carries a body validator (`validated`, `full`) inside
`withTransaction`, and the handler of a route without one (`open`,
`authenticated`) inside `withClient`. -/
theorem handler_resource_wrapper_policy :
    (∀ (H B A V P D : Type) (authenticator : H → Except JsError A)
        (validator : B → Except JsError V)
        (handler : P → A → V → Except JsError D) (req : Request H B P)
        (db : Database D) (a : A) (v : V),
        authenticator req.headers = .ok a → validator req.body = .ok v →
        executeRoute (.fullRoute authenticator validator handler) req (some db) =
          db.withTransaction (fun _ => handler req.params a v)) ∧
      (∀ (H B A V P D : Type) (validator : B → Except JsError V)
          (handler : P → V → Except JsError D) (req : Request H B P)
          (db : Database D) (v : V),
          validator req.body = .ok v →
          executeRoute (XRoute.validatedRoute (A := A) validator handler) req (some db) =
            db.withTransaction (fun _ => handler req.params v)) ∧
      (∀ (H B A V P D : Type) (authenticator : H → Except JsError A)
          (handler : P → A → Except JsError D) (req : Request H B P)
          (db : Database D) (a : A),
          authenticator req.headers = .ok a →
          executeRoute (XRoute.authenticatedRoute (V := V) authenticator handler)
              req (some db) =
            db.withClient (fun _ => handler req.params a)) ∧
      (∀ (H B A V P D : Type) (handler : P → Except JsError D)
          (req : Request H B P) (db : Database D),
          executeRoute (XRoute.openRoute (A := A) (B := B) (V := V) handler)
              req (some db) =
            db.withClient (fun _ => handler req.params)) := by
  refine ⟨?_, ?_, ?_, ?_⟩
  · intro H B A V P D authenticator validator handler req db a v ha hv
    simp [executeRoute, ha, hv]
  · intro H B A V P D validator handler req db v hv
    simp [executeRoute, hv]
  · intro H B A V P D authenticator handler req db a ha
    simp [executeRoute, ha]
  · intro H B A V P D handler req db
    simp [executeRoute]

/-! ## Route construction (src/packages/core/src/router/router.ts)

`createEndpoint(path)` returns `get`/`post`/`put`/`del`. The TypeScript
overload signatures are the construction-time rejection mechanism: no `get`
or `del` overload has a `validator` key, and every `post`/`put` overload
requires one, so a declaration violating the verb/body-validator invariant
does not type-check. The embedding mirrors those signatures as the
configuration record types: `GetConfig` has no validator field, `PostConfig`
has a mandatory one. An optional property that may be explicitly set to
`undefined` (`authenticator?: never` admits `undefined` under TS's default
optional-property semantics) is `Option (Option _)`: the outer layer is the
key's presence (what `"authenticator" in config` tests), the inner the
value's definedness. -/

/-- The configuration accepted by `get` and `del`: no `validator` key. -/
structure GetConfig (AuthFn QV HFn : Type) where
  authenticator : Option (Option AuthFn)
  queryValidator : Option (Option QV)
  handler : HFn

/-- The configuration accepted by `post` and `put`: `validator` mandatory. -/
structure PostConfig (AuthFn VFn QV HFn : Type) where
  authenticator : Option (Option AuthFn)
  validator : VFn
  queryValidator : Option (Option QV)
  handler : HFn

/-- The route record a constructor returns: `{ ...config, type, path,
method }`. `type` is the runtime tag the Express adapter dispatches on. -/
structure BuiltRoute (AuthFn VFn QV HFn : Type) where
  type : String
  path : String
  method : String
  authenticator : Option (Option AuthFn)
  validator : Option VFn
  queryValidator : Option (Option QV)
  handler : HFn

/-- `get` of `createEndpoint`: tag `authenticated` iff the `authenticator`
key is present in the configuration (`"authenticator" in config`), `open`
otherwise. -/
def get (AuthFn VFn QV HFn : Type) (path : String)
    (config : GetConfig AuthFn QV HFn) : BuiltRoute AuthFn VFn QV HFn :=
  if config.authenticator.isSome then
    { type := "authenticated", path, method := "GET",
      authenticator := config.authenticator, validator := none,
      queryValidator := config.queryValidator, handler := config.handler }
  else
    { type := "open", path, method := "GET",
      authenticator := config.authenticator, validator := none,
      queryValidator := config.queryValidator, handler := config.handler }

/-- `del` of `createEndpoint` (exposed as `delete`). -/
def del (AuthFn VFn QV HFn : Type) (path : String)
    (config : GetConfig AuthFn QV HFn) : BuiltRoute AuthFn VFn QV HFn :=
  if config.authenticator.isSome then
    { type := "authenticated", path, method := "DELETE",
      authenticator := config.authenticator, validator := none,
      queryValidator := config.queryValidator, handler := config.handler }
  else
    { type := "open", path, method := "DELETE",
      authenticator := config.authenticator, validator := none,
      queryValidator := config.queryValidator, handler := config.handler }

/-- `post` of `createEndpoint`: tag `full` iff the `authenticator` key is
present, `validated` otherwise. -/
def post (AuthFn VFn QV HFn : Type) (path : String)
    (config : PostConfig AuthFn VFn QV HFn) : BuiltRoute AuthFn VFn QV HFn :=
  if config.authenticator.isSome then
    { type := "full", path, method := "POST",
      authenticator := config.authenticator, validator := some config.validator,
      queryValidator := config.queryValidator, handler := config.handler }
  else
    { type := "validated", path, method := "POST",
      authenticator := config.authenticator, validator := some config.validator,
      queryValidator := config.queryValidator, handler := config.handler }

/-- `put` of `createEndpoint`. -/
def put (AuthFn VFn QV HFn : Type) (path : String)
    (config : PostConfig AuthFn VFn QV HFn) : BuiltRoute AuthFn VFn QV HFn :=
  if config.authenticator.isSome then
    { type := "full", path, method := "PUT",
      authenticator := config.authenticator, validator := some config.validator,
      queryValidator := config.queryValidator, handler := config.handler }
  else
    { type := "validated", path, method := "PUT",
      authenticator := config.authenticator, validator := some config.validator,
      queryValidator := config.queryValidator, handler := config.handler }

/-- The route-shape invariant: `GET`/`DELETE` routes never carry a body
validator, `POST`/`PUT` routes always carry one. -/
def verbValidatorInvariant {AuthFn VFn QV HFn : Type}
    (r : BuiltRoute AuthFn VFn QV HFn) : Prop :=
  ((r.method = "GET" ∨ r.method = "DELETE") → r.validator = none) ∧
    ((r.method = "POST" ∨ r.method = "PUT") → r.validator.isSome)

/-- C7. Every route any of the four constructors can build satisfies the
verb/body-validator invariant; a violating declaration is rejected at
construction (type-checking) time because no accepted configuration
expresses it — `get`/`del` accept no `validator` key at all and `post`/`put`
require one — so no route that violates the invariant ever reaches request
time. -/
theorem route_construction_verb_validator :
    (∀ (AuthFn VFn QV HFn : Type) (path : String)
        (config : GetConfig AuthFn QV HFn),
        (get AuthFn VFn QV HFn path config).method = "GET" ∧
          verbValidatorInvariant (get AuthFn VFn QV HFn path config)) ∧
      (∀ (AuthFn VFn QV HFn : Type) (path : String)
          (config : GetConfig AuthFn QV HFn),
          (del AuthFn VFn QV HFn path config).method = "DELETE" ∧
            verbValidatorInvariant (del AuthFn VFn QV HFn path config)) ∧
      (∀ (AuthFn VFn QV HFn : Type) (path : String)
          (config : PostConfig AuthFn VFn QV HFn),
          (post AuthFn VFn QV HFn path config).method = "POST" ∧
            verbValidatorInvariant (post AuthFn VFn QV HFn path config)) ∧
      (∀ (AuthFn VFn QV HFn : Type) (path : String)
          (config : PostConfig AuthFn VFn QV HFn),
          (put AuthFn VFn QV HFn path config).method = "PUT" ∧
            verbValidatorInvariant (put AuthFn VFn QV HFn path config)) := by
  refine ⟨?_, ?_, ?_, ?_⟩ <;>
    · intro AuthFn VFn QV HFn path config
      rcases h : config.authenticator.isSome <;>
        simp [get, del, post, put, verbValidatorInvariant, h]

/-- C10. The constructors' runtime tag is decided solely by the presence of
the `authenticator` key, not by its value being usable: in general the tag
is `authenticated`/`full` iff the key is present, and in particular a
configuration whose `authenticator` entry is present but `undefined`
(`Option.some Option.none`) still yields tag `authenticated` (GET/DELETE) or
`full` (POST/PUT) while carrying no usable authenticator. -/
theorem route_tag_by_authenticator_key_presence :
    (∀ (AuthFn VFn QV HFn : Type) (path : String)
        (config : GetConfig AuthFn QV HFn),
        (get AuthFn VFn QV HFn path config).type =
            (if config.authenticator.isSome then "authenticated" else "open") ∧
          (del AuthFn VFn QV HFn path config).type =
            (if config.authenticator.isSome then "authenticated" else "open")) ∧
      (∀ (AuthFn VFn QV HFn : Type) (path : String)
          (config : PostConfig AuthFn VFn QV HFn),
          (post AuthFn VFn QV HFn path config).type =
              (if config.authenticator.isSome then "full" else "validated") ∧
            (put AuthFn VFn QV HFn path config).type =
              (if config.authenticator.isSome then "full" else "validated")) ∧
      (∀ (AuthFn VFn QV HFn : Type) (path : String)
          (qv : Option (Option QV)) (handler : HFn),
          (get AuthFn VFn QV HFn path ⟨some none, qv, handler⟩).type =
              "authenticated" ∧
            (get AuthFn VFn QV HFn path ⟨some none, qv, handler⟩).authenticator =
              some none) ∧
      (∀ (AuthFn VFn QV HFn : Type) (path : String) (v : VFn)
          (qv : Option (Option QV)) (handler : HFn),
          (post AuthFn VFn QV HFn path ⟨some none, v, qv, handler⟩).type = "full" ∧
            (post AuthFn VFn QV HFn path ⟨some none, v, qv, handler⟩).authenticator =
              some none) := by
  refine ⟨?_, ?_, ?_, ?_⟩
  · intro AuthFn VFn QV HFn path config
    unfold get del
    rcases h : config.authenticator.isSome <;> simp [h]
  · intro AuthFn VFn QV HFn path config
    unfold post put
    rcases h : config.authenticator.isSome <;> simp [h]
  · intro AuthFn VFn QV HFn path qv handler
    unfold get
    exact ⟨rfl, rfl⟩
  · intro AuthFn VFn QV HFn path v qv handler
    unfold post
    exact ⟨rfl, rfl⟩

/-! ## Resource wrapper (the Kysely database adapter's
`withTransaction`/`withClient`) -/

/-- The resource state a client manages, as observable through reads: an
association list of rows. -/
def Store : Type := List (String × String)

/-- The context the adapter hands to `fn`
(`{ client/trx, inTransaction }`; the handle itself is the state threading). -/
structure DbRunContext where
  inTransaction : Bool
deriving DecidableEq, Repr

/-- A database action: given the current store it returns its result (or the
error it throws) together with the store as changed by the writes it
performed before returning or throwing. -/
def DbAction (α : Type) : Type := Store → Except JsError α × Store

/-- Modelled from the spec: `client.transaction().execute(fn)` of the Kysely
resource client, which is an external collaborator (out of scope per §1,
consumed through §4.5/§6's transaction contract: everything `fn` does
through the transaction handle commits if `fn` returns and rolls back
atomically if an exception escapes `fn`). On `ok` the journaled writes
become the new store; on `error` the store is as before the transaction. -/
def transactionExecute (α : Type) (store : Store) (fn : DbAction α) :
    Except JsError α × Store :=
  match fn store with
  | (.ok a, committed) => (.ok a, committed)
  | (.error e, _) => (.error e, store)

/-- `withTransaction` of the Kysely adapter: run `fn` with an in-transaction
context inside `client.transaction().execute`. -/
def withTransaction (α : Type) (store : Store)
    (fn : DbRunContext → DbAction α) : Except JsError α × Store :=
  transactionExecute α store (fn ⟨true⟩)

/-- `withClient` of the Kysely adapter: run `fn` with a plain
(non-transactional) context directly against the client — whatever writes
`fn` performed before throwing persist. -/
def withClient (α : Type) (store : Store)
    (fn : DbRunContext → DbAction α) : Except JsError α × Store :=
  fn ⟨false⟩ store

/-- C4. `withTransaction(fn)` and `withClient(fn)` return whatever `fn`
returns (value or thrown failure). When `fn` throws inside
`withTransaction` — even after performing writes, i.e. when the store it
produced differs from the initial one — the resource state afterwards is the
initial state (rollback); when `fn` returns, its writes are the new state
(commit). -/
theorem withTransaction_atomic (α : Type) (store : Store)
    (fn : DbRunContext → DbAction α) :
    ((withTransaction α store fn).1 = (fn ⟨true⟩ store).1 ∧
        (withClient α store fn).1 = (fn ⟨false⟩ store).1) ∧
      (∀ e written, fn ⟨true⟩ store = (.error e, written) →
        (withTransaction α store fn).2 = store) ∧
      (∀ a written, fn ⟨true⟩ store = (.ok a, written) →
        (withTransaction α store fn).2 = written) := by
  refine ⟨⟨?_, rfl⟩, ?_, ?_⟩
  · unfold withTransaction transactionExecute
    rcases h : fn ⟨true⟩ store with ⟨r, s'⟩
    cases r <;> simp
  · intro e written h
    unfold withTransaction transactionExecute
    rw [h]
  · intro a written h
    unfold withTransaction transactionExecute
    rw [h]

/-- C4's non-vacuity check at a concrete input: an action that writes a row
and then throws leaves the store unchanged under `withTransaction`, although
the same action run bare ends with the row written. -/
theorem withTransaction_atomic_witness :
    (withTransaction Nat [("k", "0")]
        (fun _ s => (.error (.otherError "Error" "boom"), ("k2", "1") :: s))).2 =
        [("k", "0")] ∧
      ((fun (s : Store) => (Except.error (α := Nat) (JsError.otherError "Error" "boom"),
          ("k2", "1") :: s)) [("k", "0")]).2 ≠ [("k", "0")] := by
  constructor
  · exact (withTransaction_atomic Nat [("k", "0")]
      (fun _ s => (.error (.otherError "Error" "boom"), ("k2", "1") :: s))).2.1
      (.otherError "Error" "boom") (("k2", "1") :: [("k", "0")]) rfl
  · decide

end Fossyl
